import Mathlib

/-!
Verification of the tetris-kids core game logic.

This file gives a shallow embedding of the game's core modules
(`src/core/Constants.js`, `src/game/CollisionDetector.js` including the
`PieceGenerator` class, `src/game/GameLogic.js`, `src/core/GameEngine.js`)
and proves or refutes the frozen specification claims about them.

Conventions of the embedding:
* board cells are natural numbers, `0` meaning empty; a positive value is an
  opaque color tag (the JS code stores CSS color strings, whose truthiness is
  exactly "non-empty", matching `≠ 0` here);
* JS `board[y] && board[y][x]` style accesses on possibly missing rows/cells
  are modelled with `List.getD` defaults of `0` / `[]`, since `undefined` is
  falsy;
* machine numbers used as timers / clock values are modelled as rationals
  (the JS code only adds, subtracts and compares them);
* the two JS `while` loops over piece offsets are modelled with an explicit
  fuel argument; a separate lemma shows the fuel chosen is always sufficient
  whenever the piece has at least one filled cell (for a piece with no filled
  cell the JS loop would not terminate either);
* `Math.random()` driven choices are passed in explicitly as data, so every
  theorem quantifies over all possible random outcomes.
-/

namespace TetrisKids

/-! ## Constants (src/core/Constants.js) -/

/-- `BOARD_CONFIG.WIDTH` -/
def boardWidth : Int := 10

/-- `BOARD_CONFIG.HEIGHT` -/
def boardHeight : Int := 20

/-- `FEATURES` from Constants.js (shipped configuration). -/
structure Features where
  ghostPiece : Bool
  holdPieceFlag : Bool
  wallKicks : Bool
  tSpinDetection : Bool

/-- The shipped `FEATURES` object. -/
def FEATURES : Features :=
  { ghostPiece := true
    holdPieceFlag := false
    wallKicks := true
    tSpinDetection := false }

/-- `TIMING.LOCK_DELAY` (ms). -/
def LOCK_DELAY : ℚ := 500

/-- `TIMING.LINE_CLEAR_DELAY` (ms). -/
def LINE_CLEAR_DELAY : ℚ := 300

/-- `TIMING.BASE_FALL_SPEED` (ms). -/
def BASE_FALL_SPEED : ℚ := 1000

/-- The seven tetromino identities, in the order of `Object.keys(PIECES)`. -/
inductive PieceType where
  | I | O | T | S | Z | J | L
deriving DecidableEq, Repr

open PieceType in
/-- `PIECE_TYPES = Object.keys(PIECES)`. -/
def PIECE_TYPES : List PieceType := [I, O, T, S, Z, J, L]

/-- Opaque color tag standing for the CSS color string of each piece type
(any injection into positive naturals works; truthiness = positivity). -/
def colorTag : PieceType → Nat
  | .I => 1 | .O => 2 | .T => 3 | .S => 4 | .Z => 5 | .J => 6 | .L => 7

/-- The `shape` matrices of `PIECES`, cells `0/1` as in the source. -/
def pieceShape : PieceType → List (List Nat)
  | .I => [[0,0,0,0],[1,1,1,1],[0,0,0,0],[0,0,0,0]]
  | .O => [[1,1],[1,1]]
  | .T => [[0,1,0],[1,1,1],[0,0,0]]
  | .S => [[0,1,1],[1,1,0],[0,0,0]]
  | .Z => [[1,1,0],[0,1,1],[0,0,0]]
  | .J => [[1,0,0],[1,1,1],[0,0,0]]
  | .L => [[0,0,1],[1,1,1],[0,0,0]]

/-! ## Data model -/

/-- The game board: rows of cells, row 0 at the top. -/
abbrev Board := List (List Nat)

/-- A piece object (the fields of the JS object that the game logic reads). -/
structure Piece where
  type : PieceType
  shape : List (List Nat)
  color : Nat
  x : Int
  y : Int
  rotation : Nat
deriving DecidableEq, Repr

/-- Board cell access as the JS code performs it:
`board[row] && board[row][col]`, with any out-of-list access yielding a
falsy value (modelled as `0`). -/
def cellAt (b : Board) (row col : Int) : Nat :=
  if 0 ≤ row ∧ 0 ≤ col then (b.getD row.toNat []).getD col.toNat 0 else 0

/-- A piece has at least one filled cell in its shape matrix. -/
def hasFilledCell (shape : List (List Nat)) : Prop :=
  ∃ r c, r < shape.length ∧ c < (shape.getD r []).length ∧
    (shape.getD r []).getD c 0 ≠ 0

instance (shape : List (List Nat)) : Decidable (hasFilledCell shape) := by
  unfold hasFilledCell
  have : (∃ r c, r < shape.length ∧ c < (shape.getD r []).length ∧
      (shape.getD r []).getD c 0 ≠ 0) ↔
      ∃ r ∈ List.range shape.length, ∃ c ∈ List.range (shape.getD r []).length,
        (shape.getD r []).getD c 0 ≠ 0 := by
    simp [List.mem_range]
  exact decidable_of_iff _ this.symm

/-! ## CollisionDetector (src/game/CollisionDetector.js) -/

/-- `CollisionDetector.isValidPosition(piece, board, offsetX, offsetY)`.

Faithful rendering of the double loop: for every filled shape cell the
candidate board coordinates are checked against the left/right walls, the
floor, and (only for rows inside the board) against already occupied cells;
rows above the board are skipped with `continue`. -/
def isValidPosition (p : Piece) (b : Board) (offsetX offsetY : Int) : Bool :=
  let testX := p.x + offsetX
  let testY := p.y + offsetY
  (List.range p.shape.length).all fun y =>
    (List.range (p.shape.getD y []).length).all fun x =>
      if (p.shape.getD y []).getD x 0 ≠ 0 then
        let boardX := testX + (x : Int)
        let boardY := testY + (y : Int)
        if boardX < 0 ∨ boardWidth ≤ boardX then false
        else if boardHeight ≤ boardY then false
        else if boardY < 0 then true
        else decide (cellAt b boardY boardX = 0)
      else true

/-- The movement offsets of `CollisionDetector.canMove`. -/
def moveOffset : String → Int × Int
  | "left" => (-1, 0)
  | "right" => (1, 0)
  | "down" => (0, 1)
  | _ => (0, 0)

/-- `CollisionDetector.canMove(piece, board, direction)`. -/
def canMove (p : Piece) (b : Board) (dir : String) : Bool :=
  isValidPosition p b (moveOffset dir).1 (moveOffset dir).2

/-- `CollisionDetector.hasLanded(piece, board)`. -/
def hasLanded (p : Piece) (b : Board) : Bool :=
  !canMove p b "down"

/-- Fuel bound for the two descending `while` loops.  The loops stop as soon
as a filled cell would reach `boardHeight`, so this many iterations always
suffice (proved in `hardDropAux_spec` below). -/
def dropFuel (p : Piece) : Nat :=
  (boardHeight - p.y).toNat + p.shape.length + 1

/-- Loop of `CollisionDetector.getHardDropDistance`:
`while (isValidPosition(piece, board, 0, distance + 1)) distance++`. -/
def hardDropAux (p : Piece) (b : Board) : Nat → Nat → Nat
  | 0, distance => distance
  | fuel + 1, distance =>
      if isValidPosition p b 0 ((distance : Int) + 1) then
        hardDropAux p b fuel (distance + 1)
      else distance

/-- `CollisionDetector.getHardDropDistance(piece, board)`. -/
def getHardDropDistance (p : Piece) (b : Board) : Nat :=
  hardDropAux p b (dropFuel p) 0

/-- Loop of `CollisionDetector.getGhostPiece`:
`while (isValidPosition(ghostPiece, board, 0, 1)) ghostPiece.y++`. -/
def ghostAux (b : Board) : Nat → Piece → Piece
  | 0, g => g
  | fuel + 1, g =>
      if isValidPosition g b 0 1 then ghostAux b fuel { g with y := g.y + 1 }
      else g

/-- `CollisionDetector.getGhostPiece(piece, board)` (the JS code first takes a
shallow copy `{...piece}` of the argument and then moves only the copy). -/
def getGhostPiece (p : Piece) (b : Board) : Piece :=
  ghostAux b (dropFuel p) p

/-- `CollisionDetector.isFrontCorner(rotation, cornerIndex)`. -/
def isFrontCorner (rotation cornerIndex : Nat) : Bool :=
  (([[0, 1], [1, 3], [2, 3], [0, 2]] : List (List Nat)).getD rotation []).contains
    cornerIndex

/-- The corner-occupancy test inside `checkTSpin`:
`corner.x < 0 || corner.x >= width || corner.y >= height ||
 (corner.y >= 0 && board[corner.y] && board[corner.y][corner.x])`. -/
def cornerOccupied (b : Board) (cx cy : Int) : Bool :=
  decide (cx < 0 ∨ boardWidth ≤ cx ∨ boardHeight ≤ cy ∨ (0 ≤ cy ∧ cellAt b cy cx ≠ 0))

/-- The four diagonal corners around the 3×3 bounding-box center, in source
order: top-left, top-right, bottom-left, bottom-right. -/
def tCorners (p : Piece) : List (Int × Int) :=
  let centerX := p.x + 1
  let centerY := p.y + 1
  [(centerX - 1, centerY - 1), (centerX + 1, centerY - 1),
   (centerX - 1, centerY + 1), (centerX + 1, centerY + 1)]

/-- Result object of `checkTSpin`; the early return carries only `isTSpin`
(the other JS fields are then `undefined`, modelled as `none`). -/
structure TSpinResult where
  isTSpin : Bool
  occupiedCorners : Option Nat
  frontCorners : Option Nat
  tsType : Option String
deriving DecidableEq, Repr

/-- `CollisionDetector.checkTSpin(piece, board, wasRotation)`. -/
def checkTSpin (p : Piece) (b : Board) (wasRotation : Bool) : TSpinResult :=
  if p.type ≠ PieceType.T ∨ wasRotation = false then
    ⟨false, none, none, none⟩
  else
    let corners := tCorners p
    let occupiedCorners := corners.countP fun c => cornerOccupied b c.1 c.2
    let frontCorners := corners.enum.countP fun e =>
      cornerOccupied b e.2.1 e.2.2 && isFrontCorner p.rotation e.1
    let isTS := decide (3 ≤ occupiedCorners ∧ 2 ≤ frontCorners)
    ⟨isTS, some occupiedCorners, some frontCorners,
      if isTS then some (if occupiedCorners = 4 then "T-Spin" else "T-Spin Mini")
      else none⟩

/-- `CollisionDetector.isWithinBounds(x, y)`. -/
def isWithinBounds (x y : Int) : Bool :=
  decide (0 ≤ x ∧ x < boardWidth ∧ 0 ≤ y ∧ y < boardHeight)

/-- `CollisionDetector.isLineFull(board, lineY)`. -/
def isLineFull (b : Board) (lineY : Int) : Bool :=
  if lineY < 0 ∨ boardHeight ≤ lineY then false
  else (b.getD lineY.toNat []).all fun cell => cell ≠ 0

/-- `CollisionDetector.getFullLines(board)`. -/
def getFullLines (b : Board) : List Nat :=
  (List.range boardHeight.toNat).filter fun y => isLineFull b (y : Int)

/-! ## PieceGenerator (second class in src/game/CollisionDetector.js,
imported by GameLogic as ./PieceGenerator.js) -/

/-- `PieceGenerator.createPiece(pieceType)` (the fields game logic reads;
`name`, `lockTimer` and `hasLanded` on the JS object are never consulted). -/
def createPiece (t : PieceType) : Piece :=
  { type := t
    shape := pieceShape t
    color := colorTag t
    x := (boardWidth - ((pieceShape t).getD 0 []).length) / 2
    y := 0
    rotation := 0 }

/-- The JS destructuring swap `[bag[i], bag[j]] = [bag[j], bag[i]]`. -/
def swapIdx (l : List α) (i j : Nat) : List α :=
  match l.get? i, l.get? j with
  | some a, some b => (l.set i b).set j a
  | _, _ => l

/-- The Fisher–Yates loop of `generateRandomBag`: `i` runs from
`bag.length - 1` down to `1`; at each step `j = Math.floor(Math.random()*(i+1))`
is a fresh random draw in `[0, i]`.  The draws are passed in as `choices`
(consumed front to back) and clamped with `min` to the range the source
guarantees. -/
def fyLoop (choices : List Nat) : Nat → List α → List α
  | 0, l => l
  | i + 1, l =>
      fyLoop choices.tail i (swapIdx l (i + 1) (min (choices.headD 0) (i + 1)))

/-- `PieceGenerator.generateRandomBag()` with its random draws explicit. -/
def generateRandomBag (choices : List Nat) : List PieceType :=
  fyLoop choices (PIECE_TYPES.length - 1) PIECE_TYPES

/-- The generator state: current bag and lookahead bag (`pieceHistory` is
write-only debugging state and is omitted). -/
structure GenState where
  bag : List PieceType
  nextBag : List PieceType
deriving DecidableEq, Repr

/-- Generator state after the constructor / `reset()`: `refillBag()` then
`refillNextBag()`, with the random draws of the two shuffles explicit. -/
def initGen (c0 c1 : List Nat) : GenState :=
  ⟨generateRandomBag c0, generateRandomBag c1⟩

/-- `PieceGenerator.getNextPiece()`.  `choices` are the random draws of the
`refillNextBag()` shuffle in case the current bag is exhausted.  `none` can
only arise from a state with both bags empty, which `initGen` never produces
(in JS this would be `shift()` returning `undefined` and `createPiece`
throwing). -/
def getNextPiece (s : GenState) (choices : List Nat) :
    Option (Piece × GenState) :=
  let s' := if s.bag.isEmpty then GenState.mk s.nextBag (generateRandomBag choices)
            else s
  match s'.bag with
  | [] => none
  | t :: rest => some (createPiece t, ⟨rest, s'.nextBag⟩)

/-- The sequence of piece types produced by `n` successive `getNextPiece()`
calls; the `k`-th call may consume the `k`-th entry of `jss` as the random
draws of its refill shuffle. -/
def drawTypes : GenState → List (List Nat) → Nat → List PieceType
  | _, _, 0 => []
  | s, jss, n + 1 =>
      match getNextPiece s (jss.headD []) with
      | none => []
      | some (p, s') => p.type :: drawTypes s' jss.tail n

/-- `PieceGenerator.rotateMatrix` transpose step:
`matrix[0].map((_, colIndex) => matrix.map(row => row[colIndex]))`. -/
def transposeM (m : List (List Nat)) : List (List Nat) :=
  (List.range (m.getD 0 []).length).map fun c => m.map fun row => row.getD c 0

/-- `PieceGenerator.rotateMatrix(matrix, clockwise)`. -/
def rotateMatrix (m : List (List Nat)) (clockwise : Bool) : List (List Nat) :=
  if clockwise then (transposeM m).map List.reverse
  else transposeM (m.map List.reverse)

/-- `PieceGenerator.rotatePiece(piece, clockwise)`: returns a new piece with
rotated shape and rotation index advanced mod 4. -/
def rotatePieceGen (p : Piece) (clockwise : Bool) : Piece :=
  { p with
    shape := rotateMatrix p.shape clockwise
    rotation := if clockwise then (p.rotation + 1) % 4 else (p.rotation + 3) % 4 }

/-- `PieceGenerator.getWallKickOffsets`: the standard table, keyed by
`from->to` rotation indices. -/
def standardKicks : Nat → Nat → Option (List (Int × Int))
  | 0, 1 => some [(-1, 0), (-1, -1), (0, 2), (-1, 2)]
  | 1, 0 => some [(1, 0), (1, 1), (0, -2), (1, -2)]
  | 1, 2 => some [(1, 0), (1, 1), (0, -2), (1, -2)]
  | 2, 1 => some [(-1, 0), (-1, -1), (0, 2), (-1, 2)]
  | 2, 3 => some [(1, 0), (1, -1), (0, 2), (1, 2)]
  | 3, 2 => some [(-1, 0), (-1, 1), (0, -2), (-1, -2)]
  | 3, 0 => some [(-1, 0), (-1, 1), (0, -2), (-1, -2)]
  | 0, 3 => some [(1, 0), (1, -1), (0, 2), (1, 2)]
  | _, _ => none

/-- The I-piece wall-kick table. -/
def iKicks : Nat → Nat → Option (List (Int × Int))
  | 0, 1 => some [(-2, 0), (1, 0), (-2, 1), (1, -2)]
  | 1, 0 => some [(2, 0), (-1, 0), (2, -1), (-1, 2)]
  | 1, 2 => some [(-1, 0), (2, 0), (-1, -2), (2, 1)]
  | 2, 1 => some [(1, 0), (-2, 0), (1, 2), (-2, -1)]
  | 2, 3 => some [(2, 0), (-1, 0), (2, -1), (-1, 2)]
  | 3, 2 => some [(-2, 0), (1, 0), (-2, 1), (1, -2)]
  | 3, 0 => some [(1, 0), (-2, 0), (1, 2), (-2, -1)]
  | 0, 3 => some [(-1, 0), (2, 0), (-1, -2), (2, 1)]
  | _, _ => none

/-- `PieceGenerator.getWallKickOffsets(pieceType, fromRotation, toRotation)`;
a missing table entry defaults to `[[0, 0]]`. -/
def getWallKickOffsets (t : PieceType) (fromR toR : Nat) : List (Int × Int) :=
  (if t = PieceType.I then iKicks fromR toR else standardKicks fromR toR).getD
    [(0, 0)]

/-- `CollisionDetector.canRotate(piece, board, rotatedPiece, pieceGenerator)`:
the rotated piece in place first, then each wall-kick offset in table order
(wall kicks are enabled in the shipped `FEATURES`). -/
def canRotate (p : Piece) (b : Board) (rotated : Piece) : Option Piece :=
  if isValidPosition rotated b 0 0 then some rotated
  else if FEATURES.wallKicks then
    ((getWallKickOffsets p.type p.rotation rotated.rotation).map fun o =>
      { rotated with x := rotated.x + o.1, y := rotated.y + o.2 }).find?
      fun tp => isValidPosition tp b 0 0
  else none

/-! ## GameLogic (src/game/GameLogic.js)

The observable state of a `GameLogic` instance.  The `eventListeners` map
and the `emit` calls are fire-and-forget notifications to collaborators and
carry no game state; the `stateManager.updateScore` calls go to the external
scoring collaborator.  Neither is part of the state below. -/
structure GLState where
  board : Board
  currentPiece : Option Piece
  nextPiece : Option Piece
  holdSlot : Option Piece
  ghostPiece : Option Piece
  gen : GenState
  fallTimer : ℚ
  lockTimer : ℚ
  fallSpeed : ℚ
  isGameOver : Bool
  canHold : Bool
  lastRotation : Bool
  clearingLines : List Nat
  clearTimer : ℚ
  linesCleared : Nat
  piecesPlaced : Nat
  totalDropDistance : Nat
deriving DecidableEq, Repr

/-- `GameLogic.updateGhostPiece()`. -/
def updateGhostPiece (st : GLState) : GLState :=
  match st.currentPiece with
  | none => { st with ghostPiece := none }
  | some p =>
      if FEATURES.ghostPiece then
        { st with ghostPiece := some (getGhostPiece p st.board) }
      else { st with ghostPiece := none }

/-- `GameLogic.movePiece(direction)`: returns the JS boolean result together
with the state after the call. -/
def movePiece (st : GLState) (dir : String) : Bool × GLState :=
  match st.currentPiece with
  | none => (false, st)
  | some p =>
      if st.isGameOver then (false, st)
      else if canMove p st.board dir then
        let p' := if dir = "left" then { p with x := p.x - 1 }
                  else if dir = "right" then { p with x := p.x + 1 }
                  else if dir = "down" then { p with y := p.y + 1 }
                  else p
        let st' := { st with
          currentPiece := some p'
          totalDropDistance :=
            if dir = "down" then st.totalDropDistance + 1
            else st.totalDropDistance
          lastRotation := false }
        (true, updateGhostPiece st')
      else (false, st)

/-- `GameLogic.rotatePiece(clockwise)`. -/
def rotatePieceGL (st : GLState) (clockwise : Bool) : Bool × GLState :=
  match st.currentPiece with
  | none => (false, st)
  | some p =>
      if st.isGameOver then (false, st)
      else
        let rotated := rotatePieceGen p clockwise
        match canRotate p st.board rotated with
        | some valid =>
            (true, updateGhostPiece { st with
              currentPiece := some valid
              lastRotation := true })
        | none => (false, st)

/-- `GameLogic.holdPiece()`.  `choices` are the random draws of the
`getNextPiece()` call in the non-swap branch. -/
def holdPieceGL (st : GLState) (choices : List Nat) : Bool × GLState :=
  match st.currentPiece with
  | none => (false, st)
  | some cur =>
      if FEATURES.holdPieceFlag = false ∨ st.canHold = false ∨ st.isGameOver then
        (false, st)
      else
        let st1 :=
          match st.holdSlot with
          | some held =>
              { st with
                currentPiece := some { held with
                  x := (boardWidth - ((held.shape.getD 0 []).length : Int)) / 2
                  y := 0
                  rotation := 0 }
                holdSlot := some cur }
          | none =>
              match getNextPiece st.gen choices with
              | some (np, g') =>
                  { st with
                    holdSlot := some cur
                    currentPiece := st.nextPiece
                    nextPiece := some np
                    gen := g' }
              | none =>
                  { st with holdSlot := some cur, currentPiece := st.nextPiece }
        (true, updateGhostPiece { st1 with
          canHold := false, fallTimer := 0, lockTimer := 0 })

/-- A row of `BOARD_CONFIG.WIDTH` empty cells:
`Array(BOARD_CONFIG.WIDTH).fill(0)`. -/
def emptyRow : List Nat := List.replicate boardWidth.toNat 0

/-- `this.clearingLines.sort((a, b) => b - a)`: sort descending (modelled
with a stable structural sort, which has the same semantics). -/
def sortDesc (l : List Nat) : List Nat :=
  l.insertionSort fun a b => b ≤ a

/-- The board mutation performed by `GameLogic.completeLinesClearing()`:
for each index of the descending-sorted `clearingLines`,
`board.splice(lineIndex, 1)` then `board.unshift(emptyRow)`. -/
def completeLinesClearingBoard (bd : Board) (clearing : List Nat) : Board :=
  (sortDesc clearing).foldl (fun b idx => emptyRow :: b.eraseIdx idx) bd

/-! ## GameEngine (src/core/GameEngine.js) -/

/-- `this.fixedTimeStep = 1000 / 60`. -/
def fixedTimeStep : ℚ := 1000 / 60

/-- The fixed-timestep drain loop of `GameEngine.gameLoop`:
`while (accumulator >= fixedTimeStep) { update(fixedTimeStep); accumulator -= fixedTimeStep }`,
counting the `update` calls. -/
def accumLoop : Nat → ℚ → Nat → ℚ × Nat
  | 0, acc, n => (acc, n)
  | fuel + 1, acc, n =>
      if fixedTimeStep ≤ acc then accumLoop fuel (acc - fixedTimeStep) (n + 1)
      else (acc, n)

/-- Fuel bound for `accumLoop`; sufficient because the loop runs at most
`⌊acc / fixedTimeStep⌋ ≤ acc ≤ acc.num` times. -/
def accumFuel (acc : ℚ) : Nat := acc.num.toNat + 1

/-- One invocation of `GameEngine.gameLoop()` restricted to its simulation
effect: clamp the elapsed time at 100 ms, add it to the accumulator, drain in
fixed steps.  Returns the new `lastTime`, the new `accumulator` and the
number of `update(fixedTimeStep)` calls performed. -/
def gameLoopStep (lastTime accumulator currentTime : ℚ) : ℚ × ℚ × Nat :=
  let deltaTime := min (currentTime - lastTime) 100
  let acc := accumulator + deltaTime
  let r := accumLoop (accumFuel acc) acc 0
  (currentTime, r.1, r.2)

/-! ## Proof-layer definitions and concrete example inputs -/

/-- Proof-layer description of the draw stream from a bag boundary: the
lookahead bag first, then each freshly shuffled bag in turn. -/
def bagStream (nb : List PieceType) (jss : List (List Nat)) : Nat → List PieceType
  | 0 => []
  | k + 1 =>
      nb ++ bagStream (generateRandomBag (jss.headD [])) (jss.drop nb.length) k

/-- Corner occupancy as the claim words it ("occupied when out of bounds or
holding a non-empty cell"), under which a corner above the board is occupied.
Stated only to compare with the source's `cornerOccupied`, which treats a
corner above the board as NOT occupied. -/
def claimCornerOccupied (b : Board) (c : Int × Int) : Bool :=
  decide (c.1 < 0 ∨ boardWidth ≤ c.1 ∨ c.2 < 0 ∨ boardHeight ≤ c.2 ∨
    cellAt b c.2 c.1 ≠ 0)

/-- An all-empty 10×20 board. -/
def emptyBoard : Board := List.replicate 20 (List.replicate 10 0)

/-- A completely full row. -/
def fullRow : List Nat := List.replicate 10 1

/-- Board whose bottom two rows (indices 18 and 19) are full. -/
def c2Board : Board := List.replicate 18 (List.replicate 10 0) ++ [fullRow, fullRow]

/-- An O piece resting on the floor of the empty board. -/
def c3Piece : Piece :=
  { type := .O, shape := pieceShape .O, color := 2, x := 4, y := 18, rotation := 0 }

/-- A game state whose landed current piece has accumulated 100 ms of lock
time (lock delay is 500 ms). -/
def c3State : GLState :=
  { board := emptyBoard, currentPiece := some c3Piece, nextPiece := none,
    holdSlot := none, ghostPiece := none, gen := ⟨[], []⟩, fallTimer := 0,
    lockTimer := 100, fallSpeed := 1000, isGameOver := false, canHold := true,
    lastRotation := false, clearingLines := [], clearTimer := 0,
    linesCleared := 0, piecesPlaced := 0, totalDropDistance := 0 }

/-- 14 draws from a freshly reset generator whose first shuffle produced the
identity order and whose second shuffle swapped the first two types. -/
def c4Draws : List PieceType :=
  drawTypes (initGen [6, 5, 4, 3, 2, 1] [6, 5, 4, 3, 2, 0]) [] 14

/-- An O piece at the top of the board, above an overhang. -/
def c5Piece : Piece :=
  { type := .O, shape := pieceShape .O, color := 2, x := 4, y := 0, rotation := 0 }

/-- A board with a two-cell overhang at row 3, columns 4–5, and nothing
below it: the valid downward offsets for `c5Piece` are non-contiguous. -/
def c5Board : Board :=
  List.replicate 3 (List.replicate 10 0) ++
    [[0, 0, 0, 0, 1, 1, 0, 0, 0, 0]] ++ List.replicate 16 (List.replicate 10 0)

/-- A T piece whose 3×3 box pokes above the board (y = −1). -/
def c6Piece : Piece :=
  { type := .T, shape := pieceShape .T, color := 3, x := 3, y := -1, rotation := 0 }

/-- Board with cells (row 1, col 3) and (row 1, col 5) filled: both bottom
corners of `c6Piece`'s center are occupied, both top corners lie above the
board. -/
def c6Board : Board :=
  [List.replicate 10 0, [0, 0, 0, 1, 0, 1, 0, 0, 0, 0]] ++
    List.replicate 18 (List.replicate 10 0)

/-- A board that is completely full except for the four cells of a T piece
sitting at x = 4, y = 17, so the piece can neither move nor rotate. -/
def c8Board : Board :=
  (List.range 20).map fun r =>
    (List.range 10).map fun c =>
      if (r = 17 ∧ c = 5) ∨ (r = 18 ∧ (c = 4 ∨ c = 5 ∨ c = 6)) then 0 else 1

/-- The wedged T piece for `c8Board`. -/
def c8Piece : Piece :=
  { type := .T, shape := pieceShape .T, color := 3, x := 4, y := 17, rotation := 0 }

/-- Game state with the wedged piece. -/
def c8State : GLState := { c3State with board := c8Board, currentPiece := some c8Piece }

/-! ## Helper lemmas -/

/-- The per-cell check of `isValidPosition`, as an iff. -/
theorem cellBody_false_iff (b : Board) (v : Nat) (bx by' : Int) :
    (if v ≠ 0 then
        if bx < 0 ∨ boardWidth ≤ bx then false
        else if boardHeight ≤ by' then false
        else if by' < 0 then true
        else decide (cellAt b by' bx = 0)
      else true) = false ↔
      v ≠ 0 ∧ (bx < 0 ∨ boardWidth ≤ bx ∨ boardHeight ≤ by' ∨
        (0 ≤ by' ∧ cellAt b by' bx ≠ 0)) := by
  split_ifs with h1 h2 h3 h4 <;> simp_all <;> omega

/-- Characterization of `isValidPosition = false` (working version used by
later lemmas). -/
theorem isValidPosition_false_iff_aux (p : Piece) (b : Board) (dx dy : Int) :
    isValidPosition p b dx dy = false ↔
      ∃ r c, r < p.shape.length ∧ c < (p.shape.getD r []).length ∧
        (p.shape.getD r []).getD c 0 ≠ 0 ∧
        (p.x + dx + (c : Int) < 0 ∨ boardWidth ≤ p.x + dx + (c : Int) ∨
          boardHeight ≤ p.y + dy + (r : Int) ∨
          (0 ≤ p.y + dy + (r : Int) ∧
            cellAt b (p.y + dy + (r : Int)) (p.x + dx + (c : Int)) ≠ 0)) := by
  unfold isValidPosition
  simp only [List.all_eq_false, List.mem_range, Bool.not_eq_true, cellBody_false_iff]
  constructor
  · rintro ⟨r, hr, c, hc, h⟩
    exact ⟨r, c, hr, hc, h⟩
  · rintro ⟨r, c, hr, hc, h⟩
    exact ⟨r, hr, c, hc, h⟩

/-- Any downward offset at or beyond `boardHeight - p.y` is invalid, because
a filled cell then lies at or below the floor. -/
theorem valid_far_false (p : Piece) (b : Board) (hf : hasFilledCell p.shape)
    (m : Int) (hm : boardHeight - p.y ≤ m) : isValidPosition p b 0 m = false := by
  obtain ⟨r, c, hr, hc, hv⟩ := hf
  rw [isValidPosition_false_iff_aux]
  refine ⟨r, c, hr, hc, hv, Or.inr (Or.inr (Or.inl ?_))⟩
  omega

/-- The hard-drop loop returns the first `d` with `¬valid(d+1)`, and the
fuel in `dropFuel` always suffices. -/
theorem hardDropAux_spec (p : Piece) (b : Board) (hf : hasFilledCell p.shape) :
    ∀ fuel d, fuel + d = dropFuel p →
      (∀ k < d, isValidPosition p b 0 ((k : Int) + 1) = true) →
      isValidPosition p b 0 ((hardDropAux p b fuel d : Int) + 1) = false ∧
        ∀ k < hardDropAux p b fuel d, isValidPosition p b 0 ((k : Int) + 1) = true := by
  intro fuel
  induction fuel with
  | zero =>
      intro d hd hvalid
      have hd' : d = dropFuel p := by omega
      refine ⟨?_, by simpa [hardDropAux] using hvalid⟩
      have : boardHeight - p.y ≤ (d : Int) + 1 := by
        have : ((boardHeight - p.y).toNat : Int) ≤ (d : Int) := by
          simp [hd', dropFuel]; omega
        omega
      simpa [hardDropAux] using valid_far_false p b hf _ this
  | succ n ih =>
      intro d hd hvalid
      rw [hardDropAux]
      split_ifs with h
      · exact ih (d + 1) (by omega) (by
          intro k hk
          rcases Nat.lt_succ_iff_lt_or_eq.mp hk with hk' | hk'
          · exact hvalid k hk'
          · simpa [hk'] using h)
      · exact ⟨by simpa using h, hvalid⟩

/-- The ghost loop lands on a piece that can no longer move down, changing
only the `y` coordinate; the fuel bound always suffices. -/
theorem ghostAux_spec (b : Board) :
    ∀ fuel (g : Piece), hasFilledCell g.shape →
      (boardHeight - g.y).toNat < fuel →
      isValidPosition (ghostAux b fuel g) b 0 1 = false ∧
        (ghostAux b fuel g).shape = g.shape ∧
        (ghostAux b fuel g).x = g.x ∧
        (ghostAux b fuel g).type = g.type ∧
        (ghostAux b fuel g).rotation = g.rotation ∧
        (ghostAux b fuel g).color = g.color := by
  intro fuel
  induction fuel with
  | zero => intro g _ h; omega
  | succ n ih =>
      intro g hf hb
      rw [ghostAux]
      split_ifs with h
      · have hbound : (boardHeight - ({ g with y := g.y + 1 } : Piece).y).toNat < n := by
          obtain ⟨r, c, hr, hc, hv⟩ := hf
          have hnotfalse : ¬ isValidPosition g b 0 1 = false := by simp [h]
          rw [isValidPosition_false_iff_aux] at hnotfalse
          push_neg at hnotfalse
          have := hnotfalse r c hr hc hv
          push_neg at this
          obtain ⟨-, -, h3, -⟩ := this
          simp only
          omega
        exact ih { g with y := g.y + 1 } hf hbound
      · exact ⟨by simpa using h, rfl, rfl, rfl, rfl, rfl⟩

/-- Properties of a freshly computed ghost piece. -/
theorem getGhostPiece_spec (p : Piece) (b : Board) (hf : hasFilledCell p.shape) :
    isValidPosition (getGhostPiece p b) b 0 1 = false ∧
      (getGhostPiece p b).shape = p.shape ∧
      (getGhostPiece p b).x = p.x ∧
      (getGhostPiece p b).type = p.type ∧
      (getGhostPiece p b).rotation = p.rotation ∧
      (getGhostPiece p b).color = p.color :=
  ghostAux_spec b (dropFuel p) p hf (by simp [dropFuel]; omega)

/-- `updateGhostPiece` never touches the lock timer. -/
theorem updateGhost_lockTimer (st : GLState) :
    (updateGhostPiece st).lockTimer = st.lockTimer := by
  cases h : st.currentPiece <;> simp [updateGhostPiece, h, FEATURES]

/-- `movePiece` never touches the lock timer. -/
theorem movePiece_lockTimer (st : GLState) (dir : String) :
    (movePiece st dir).2.lockTimer = st.lockTimer := by
  cases hc : st.currentPiece with
  | none => simp [movePiece, hc]
  | some p =>
      simp only [movePiece, hc]
      split_ifs <;> simp [updateGhost_lockTimer]

/-- `rotatePiece` never touches the lock timer. -/
theorem rotatePiece_lockTimer (st : GLState) (cw : Bool) :
    (rotatePieceGL st cw).2.lockTimer = st.lockTimer := by
  cases hc : st.currentPiece with
  | none => simp [rotatePieceGL, hc]
  | some p =>
      simp only [rotatePieceGL, hc]
      split_ifs
      · rfl
      · cases hr : canRotate p st.board (rotatePieceGen p cw) <;>
          simp [updateGhost_lockTimer]

/-- A failed `movePiece` leaves the state untouched. -/
theorem movePiece_fail_noop (st : GLState) (dir : String)
    (h : (movePiece st dir).1 = false) : (movePiece st dir).2 = st := by
  cases hc : st.currentPiece with
  | none => simp [movePiece, hc]
  | some p =>
      simp only [movePiece, hc] at h ⊢
      split_ifs at h ⊢ <;> simp_all

/-- A failed `rotatePiece` leaves the state untouched. -/
theorem rotatePiece_fail_noop (st : GLState) (cw : Bool)
    (h : (rotatePieceGL st cw).1 = false) : (rotatePieceGL st cw).2 = st := by
  cases hc : st.currentPiece with
  | none => simp [rotatePieceGL, hc]
  | some p =>
      simp only [rotatePieceGL, hc] at h ⊢
      split_ifs at h ⊢ <;> try simp_all
      · cases hr : canRotate p st.board (rotatePieceGen p cw) <;> simp_all

/-- The fixed step is positive. -/
theorem fixedTimeStep_pos : (0 : ℚ) < fixedTimeStep := by norm_num [fixedTimeStep]

/-- The drain loop performs exactly `⌊acc / step⌋` subtractions. -/
theorem accumLoop_spec : ∀ (fuel : Nat) (acc : ℚ) (n : Nat), 0 ≤ acc →
    (⌊acc / fixedTimeStep⌋).toNat < fuel →
    accumLoop fuel acc n =
      (acc - ⌊acc / fixedTimeStep⌋ * fixedTimeStep,
       n + (⌊acc / fixedTimeStep⌋).toNat) := by
  intro fuel
  induction fuel with
  | zero => intro acc n _ h; omega
  | succ m ih =>
      intro acc n hacc hfuel
      rw [accumLoop]
      split_ifs with h
      · have hstep := fixedTimeStep_pos
        have hk1 : 1 ≤ ⌊acc / fixedTimeStep⌋ := by
          rw [Int.le_floor]
          push_cast
          rw [le_div_iff₀ hstep]
          linarith
        have hsub : (acc - fixedTimeStep) / fixedTimeStep = acc / fixedTimeStep - 1 := by
          field_simp
        have hfl : ⌊(acc - fixedTimeStep) / fixedTimeStep⌋ = ⌊acc / fixedTimeStep⌋ - 1 := by
          rw [hsub]
          exact_mod_cast Int.floor_sub_int (acc / fixedTimeStep) 1
        rw [ih (acc - fixedTimeStep) (n + 1) (by linarith) (by rw [hfl]; omega)]
        rw [Prod.mk.injEq]
        refine ⟨by rw [hfl]; push_cast; ring, by rw [hfl]; omega⟩
      · have hstep := fixedTimeStep_pos
        have hfl : ⌊acc / fixedTimeStep⌋ = 0 := by
          rw [Int.floor_eq_zero_iff]
          constructor
          · exact div_nonneg hacc (le_of_lt hstep)
          · rw [div_lt_one hstep]; linarith
        simp [hfl]

/-- The destructuring swap `[bag[i], bag[j]] = [bag[j], bag[i]]` permutes the
list. -/
theorem swapIdx_perm {α : Type} [DecidableEq α] (l : List α) (i j : Nat) :
    (swapIdx l i j).Perm l := by
  unfold swapIdx
  split
  case h_2 => exact List.Perm.refl l
  case h_1 a b h1 h2 =>
    have hi : i < l.length := by
      by_contra hcon
      rw [List.get?_eq_none.mpr (by omega)] at h1
      exact Option.noConfusion h1
    have hj : j < l.length := by
      by_contra hcon
      rw [List.get?_eq_none.mpr (by omega)] at h2
      exact Option.noConfusion h2
    have hli : l[i] = a := by
      have := List.get?_eq_get hi
      rw [h1] at this
      simpa using this.symm
    have hlj : l[j] = b := by
      have := List.get?_eq_get hj
      rw [h2] at this
      simpa using this.symm
    rw [List.perm_iff_count]
    intro x
    have hj' : j < (l.set i b).length := by simpa using hj
    rw [List.count_set _ _ _ _ hj', List.count_set _ _ _ _ hi]
    have hgj : (l.set i b)[j] = b := by
      rw [List.getElem_set]
      split_ifs with h
      · rfl
      · exact hlj
    rw [hgj, hli]
    have hmem : a ∈ l := hli ▸ List.getElem_mem hi
    have hbmem : b ∈ l := hlj ▸ List.getElem_mem hj
    by_cases hax : a = x <;> by_cases hbx : b = x
    · have h1c : 1 ≤ l.count x := List.one_le_count_iff.mpr (hax ▸ hmem)
      simp [hax, hbx]
      omega
    · have h1c : 1 ≤ l.count x := List.one_le_count_iff.mpr (hax ▸ hmem)
      simp [hax, hbx]
      omega
    · simp [hax, hbx]
    · simp [hax, hbx]

/-- The Fisher–Yates loop permutes its input, whatever the random draws. -/
theorem fyLoop_perm {α : Type} [DecidableEq α] :
    ∀ (i : Nat) (choices : List Nat) (l : List α), (fyLoop choices i l).Perm l := by
  intro i
  induction i with
  | zero => intro choices l; exact List.Perm.refl l
  | succ m ih =>
      intro choices l
      rw [fyLoop]
      exact (ih choices.tail _).trans (swapIdx_perm l _ _)

/-- Every generated bag is a permutation of the 7 piece types. -/
theorem generateRandomBag_perm (choices : List Nat) :
    (generateRandomBag choices).Perm PIECE_TYPES :=
  fyLoop_perm _ choices PIECE_TYPES

/-- Every generated bag has exactly 7 pieces. -/
theorem generateRandomBag_length (choices : List Nat) :
    (generateRandomBag choices).length = 7 :=
  (generateRandomBag_perm choices).length_eq

/-- Successive draws consume the current bag front to back. -/
theorem drawTypes_bag_consume :
    ∀ (bag nb : List PieceType) (jss : List (List Nat)) (n : Nat),
      drawTypes ⟨bag, nb⟩ jss (bag.length + n) =
        bag ++ drawTypes ⟨[], nb⟩ (jss.drop bag.length) n := by
  intro bag
  induction bag with
  | nil => intro nb jss n; simp
  | cons t rest ih =>
      intro nb jss n
      have hlen : (t :: rest).length + n = (rest.length + n) + 1 := by simp; omega
      rw [hlen]
      rw [drawTypes]
      simp only [getNextPiece, List.isEmpty_cons]
      simp only [Bool.false_eq_true, if_false]
      rw [ih nb jss.tail n]
      simp [createPiece, List.drop_one]

/-- A draw at a bag boundary promotes the lookahead bag and shuffles a new
one from the next random draws. -/
theorem drawTypes_refill (y : PieceType) (ys : List PieceType)
    (jss : List (List Nat)) (n : Nat) :
    drawTypes ⟨[], y :: ys⟩ jss (n + 1) =
      y :: drawTypes ⟨ys, generateRandomBag (jss.headD [])⟩ jss.tail n := by
  rw [drawTypes]
  simp [getNextPiece, createPiece]

/-- From a bag boundary, `7 * k` draws produce exactly the next `k` bags. -/
theorem drawTypes_bagStream :
    ∀ (k : Nat) (nb : List PieceType) (jss : List (List Nat)), nb.length = 7 →
      drawTypes ⟨[], nb⟩ jss (7 * k) = bagStream nb jss k := by
  intro k
  induction k with
  | zero => intro nb jss _; simp [drawTypes, bagStream]
  | succ m ih =>
      intro nb jss h7
      cases nb with
      | nil => simp at h7
      | cons y ys =>
          have hys : ys.length = 6 := by simpa using h7
          have hcnt : 7 * (m + 1) = (ys.length + 7 * m) + 1 := by omega
          rw [hcnt, drawTypes_refill]
          have hcons : ys.length + 7 * m = ys.length + (7 * m) := rfl
          rw [hcons, drawTypes_bag_consume ys (generateRandomBag (jss.headD []))
            jss.tail (7 * m)]
          rw [ih (generateRandomBag (jss.headD [])) (jss.tail.drop ys.length)
            (generateRandomBag_length _)]
          rw [bagStream]
          simp only [List.cons_append, List.length_cons, hys]
          simp [List.tail_drop, List.drop_drop, List.drop_one]

/-- Every aligned 7-window of a bag stream is a permutation of the types. -/
theorem bagStream_window_perm :
    ∀ (k : Nat) (nb : List PieceType) (jss : List (List Nat)) (i : Nat),
      nb.Perm PIECE_TYPES → i < k →
      (((bagStream nb jss k).drop (7 * i)).take 7).Perm PIECE_TYPES := by
  intro k
  induction k with
  | zero => intro nb jss i _ h; omega
  | succ m ih =>
      intro nb jss i hperm hik
      rw [bagStream]
      have h7 : nb.length = 7 := hperm.length_eq
      cases i with
      | zero =>
          simpa [← h7, List.take_left] using hperm
      | succ i' =>
          have hsplit : 7 * (i' + 1) = nb.length + 7 * i' := by omega
          rw [hsplit, List.drop_append]
          exact ih _ _ i' (generateRandomBag_perm _) (by omega)

/-! ## Claim theorems -/

/-- C1: `isValidPosition(piece, board, dx, dy)` returns `false` if and only
if some filled cell of the piece's shape, placed at the offset position, has
a column outside `[0, width)`, or a row `≥ height`, or lands on a non-empty
in-bounds board cell; rows `< 0` alone never make the position invalid, and
it returns `true` otherwise. -/
theorem isValidPosition_false_iff (p : Piece) (b : Board) (dx dy : Int) :
    isValidPosition p b dx dy = false ↔
      ∃ r c, r < p.shape.length ∧ c < (p.shape.getD r []).length ∧
        (p.shape.getD r []).getD c 0 ≠ 0 ∧
        (p.x + dx + (c : Int) < 0 ∨ boardWidth ≤ p.x + dx + (c : Int) ∨
          boardHeight ≤ p.y + dy + (r : Int) ∨
          (0 ≤ p.y + dy + (r : Int) ∧
            cellAt b (p.y + dy + (r : Int)) (p.x + dx + (c : Int)) ≠ 0)) :=
  isValidPosition_false_iff_aux p b dx dy

/-- C2: on the board whose rows 18 and 19 are the full rows R,
`getFullLines` does return exactly `[18, 19]`, but completing the clear with
`clearingLines = [18, 19]` leaves a full row on the board (the contents of
original row 18 survive at index 19, while the never-full row 17 was
removed), contradicting the claim that every row of R is removed.  The
interleaved `splice`/`unshift` shifts the remaining indices after each
removal. -/
theorem completeLinesClearing_leaves_full_row :
    getFullLines c2Board = [18, 19] ∧
      (completeLinesClearingBoard c2Board [18, 19]).length = 20 ∧
      getFullLines (completeLinesClearingBoard c2Board [18, 19]) = [19] :=
  ⟨by decide, by decide, by decide⟩

/-- C3 counterexample: a landed piece with 100 ms of accumulated lock time
(below the 500 ms lock delay) is successfully moved left into a still-landed
position, yet its lock timer stays at 100 ms instead of resetting to zero. -/
theorem movePiece_lock_reset_cex :
    hasLanded c3Piece emptyBoard = true ∧
      c3State.lockTimer = 100 ∧ (0 : ℚ) < 100 ∧ (100 : ℚ) < LOCK_DELAY ∧
      (movePiece c3State "left").1 = true ∧
      hasLanded ((movePiece c3State "left").2.currentPiece.getD c3Piece)
        emptyBoard = true ∧
      (movePiece c3State "left").2.lockTimer = 100 ∧ (100 : ℚ) ≠ 0 :=
  ⟨by decide, by decide, by norm_num, by decide, by decide, by decide, by decide,
   by norm_num⟩

/-- C3 (amended): a successful `movePiece` or `rotatePiece` never modifies
the lock timer at all; the timer is reset to zero only by the per-tick
`update` when the piece is not landed, or on spawn/hold. -/
theorem moveRotate_lockTimer_unchanged (st : GLState) (dir : String) (cw : Bool) :
    (movePiece st dir).2.lockTimer = st.lockTimer ∧
      (rotatePieceGL st cw).2.lockTimer = st.lockTimer :=
  ⟨movePiece_lockTimer st dir, rotatePiece_lockTimer st cw⟩

/-- C4 counterexample: with the first shuffle producing the identity order
and the second shuffle starting with a different type, the 7 consecutive
draws 2–8 (straddling the bag refill) contain the O piece twice and the I
piece not at all. -/
theorem fairBag_straddling_cex :
    ((c4Draws.drop 1).take 7).length = 7 ∧
      ((c4Draws.drop 1).take 7).count PieceType.O = 2 ∧
      ((c4Draws.drop 1).take 7).count PieceType.I = 0 :=
  ⟨by decide, by decide, by decide⟩

/-- C4 (amended): for every sequence of random shuffle choices, each aligned
block of 7 consecutive `getNextPiece()` draws from a freshly reset generator
(draws `7i+1 … 7i+7`) contains each of the 7 types exactly once; windows
straddling a bag refill may repeat a type. -/
theorem fairBag_aligned_windows (c0 c1 : List Nat) (jss : List (List Nat))
    (k i : Nat) (hik : i < k) :
    (((drawTypes (initGen c0 c1) jss (7 * k)).drop (7 * i)).take 7).Perm
      PIECE_TYPES := by
  cases k with
  | zero => omega
  | succ m =>
      have hinit : drawTypes (initGen c0 c1) jss (7 * (m + 1)) =
          generateRandomBag c0 ++
            bagStream (generateRandomBag c1) (jss.drop 7) m := by
        show drawTypes ⟨generateRandomBag c0, generateRandomBag c1⟩ jss _ = _
        have hcnt : 7 * (m + 1) = (generateRandomBag c0).length + 7 * m := by
          rw [generateRandomBag_length]; omega
        rw [hcnt, drawTypes_bag_consume, generateRandomBag_length,
          drawTypes_bagStream m _ _ (generateRandomBag_length _)]
      rw [hinit]
      cases i with
      | zero =>
          simpa [← generateRandomBag_length c0, List.take_left] using
            generateRandomBag_perm c0
      | succ i' =>
          have hsplit : 7 * (i' + 1) = (generateRandomBag c0).length + 7 * i' := by
            rw [generateRandomBag_length]; omega
          rw [hsplit, List.drop_append]
          exact bagStream_window_perm m _ _ i' (generateRandomBag_perm _) (by omega)

/-- C4 witness: the second aligned window of 14 concrete draws is a
permutation of the 7 types. -/
theorem fairBag_aligned_windows_witness :
    (((drawTypes (initGen [6, 5, 4, 3, 2, 1] [6, 5, 4, 3, 2, 0]) [] (7 * 2)).drop
        (7 * 1)).take 7).Perm PIECE_TYPES :=
  fairBag_aligned_windows [6, 5, 4, 3, 2, 1] [6, 5, 4, 3, 2, 0] [] 2 1 (by decide)

/-- C5 counterexample: on `c5Board` (an overhang at row 3 with empty space
below) the probe stops at distance 1, although `d = 18` also satisfies
"valid at d, invalid at d + 1" and is larger, so the returned value is not
the maximum such `d`. -/
theorem hardDrop_not_maximum_cex :
    getHardDropDistance c5Piece c5Board = 1 ∧
      isValidPosition c5Piece c5Board 0 18 = true ∧
      isValidPosition c5Piece c5Board 0 19 = false ∧
      getHardDropDistance c5Piece c5Board < 18 :=
  ⟨by decide, by decide, by decide, by decide⟩

/-- C5 (amended): for every piece with at least one filled cell and every
board, `getHardDropDistance` returns the LEAST `d ≥ 0` such that
`isValidPosition(piece, board, 0, d + 1)` is false: the offset `d + 1` is
invalid and every smaller offset probe succeeded.  On boards whose valid
downward offsets are contiguous this is also the maximum valid drop. -/
theorem getHardDropDistance_least_stop (p : Piece) (b : Board)
    (hf : hasFilledCell p.shape) :
    isValidPosition p b 0 ((getHardDropDistance p b : Int) + 1) = false ∧
      ∀ k < getHardDropDistance p b, isValidPosition p b 0 ((k : Int) + 1) = true :=
  hardDropAux_spec p b hf (dropFuel p) 0 (by omega) (by omega)

/-- C5 witness: instantiation on the concrete overhang board. -/
theorem getHardDropDistance_least_stop_witness :
    isValidPosition c5Piece c5Board 0
        ((getHardDropDistance c5Piece c5Board : Int) + 1) = false ∧
      isValidPosition c5Piece c5Board 0 ((0 : Int) + 1) = true :=
  ⟨(getHardDropDistance_least_stop c5Piece c5Board (by decide)).1,
   (getHardDropDistance_least_stop c5Piece c5Board (by decide)).2 0 (by decide)⟩

/-- C6 counterexample: a T piece at `y = -1` after a rotation, with both
bottom corners filled: under the claim's occupancy ("out of bounds counts
as occupied") all 4 corners are occupied and 2 of them are front corners,
so the claim classifies a T-Spin — but the code returns `isTSpin = false`,
because it treats the two corners above the board as unoccupied. -/
theorem checkTSpin_above_board_cex :
    (checkTSpin c6Piece c6Board true).isTSpin = false ∧
      ((tCorners c6Piece).countP fun c => claimCornerOccupied c6Board c) = 4 ∧
      ((tCorners c6Piece).enum.countP fun e =>
        claimCornerOccupied c6Board e.2 && isFrontCorner c6Piece.rotation e.1) = 2 :=
  ⟨by decide, by decide, by decide⟩

/-- C6 (amended): `checkTSpin` classifies a T-Spin iff the piece is a
T piece, the last action was a rotation, and among the four diagonal
neighbors of the 3×3 bounding-box center at least 3 are occupied with at
least 2 of them front corners for the current rotation — where a corner is
occupied when its column is outside `[0, width)`, its row is `≥ height`, or
it is an in-bounds cell (row `≥ 0`) holding a non-empty value; a corner
above the board (row `< 0`, column in range) counts as NOT occupied. -/
theorem checkTSpin_isTSpin_iff (p : Piece) (b : Board) (wr : Bool) :
    (checkTSpin p b wr).isTSpin = true ↔
      p.type = PieceType.T ∧ wr = true ∧
        3 ≤ (tCorners p).countP (fun c =>
          decide (c.1 < 0 ∨ boardWidth ≤ c.1 ∨ boardHeight ≤ c.2 ∨
            (0 ≤ c.2 ∧ cellAt b c.2 c.1 ≠ 0))) ∧
        2 ≤ (tCorners p).enum.countP (fun e =>
          decide (e.2.1 < 0 ∨ boardWidth ≤ e.2.1 ∨ boardHeight ≤ e.2.2 ∨
            (0 ≤ e.2.2 ∧ cellAt b e.2.2 e.2.1 ≠ 0)) && isFrontCorner p.rotation e.1) := by
  unfold checkTSpin
  split_ifs with h
  · rcases h with h | h <;> simp [h]
  · push_neg at h
    obtain ⟨h1, h2⟩ := h
    have h2' : wr = true := by
      cases wr
      · exact absurd rfl h2
      · rfl
    simp [h1, h2', cornerOccupied, decide_eq_true_iff]

/-- C7: `getGhostPiece` is a pure function of its arguments in this
embedding (the JS code copies the piece before moving it and never writes
the board), and repeated application is stable: the ghost of the ghost is
the ghost itself, with shape and column unchanged — so two consecutive
calls on the same piece and board yield identical results. -/
theorem getGhostPiece_stable (p : Piece) (b : Board) (hf : hasFilledCell p.shape) :
    getGhostPiece (getGhostPiece p b) b = getGhostPiece p b ∧
      (getGhostPiece p b).shape = p.shape ∧ (getGhostPiece p b).x = p.x := by
  obtain ⟨hval, hsh, hx, -, -, -⟩ := getGhostPiece_spec p b hf
  refine ⟨?_, hsh, hx⟩
  show ghostAux b (dropFuel (getGhostPiece p b)) (getGhostPiece p b) = getGhostPiece p b
  have : dropFuel (getGhostPiece p b) =
      ((boardHeight - (getGhostPiece p b).y).toNat +
        (getGhostPiece p b).shape.length) + 1 := by
    simp [dropFuel]
  rw [this, ghostAux, hval]
  simp

/-- C7 witness: instantiation on a concrete piece and board. -/
theorem getGhostPiece_stable_witness :
    getGhostPiece (getGhostPiece c5Piece c5Board) c5Board =
        getGhostPiece c5Piece c5Board ∧
      (getGhostPiece c5Piece c5Board).shape = c5Piece.shape ∧
      (getGhostPiece c5Piece c5Board).x = c5Piece.x :=
  getGhostPiece_stable c5Piece c5Board (by decide)

/-- C8: when the requested move or rotation is invalid, `movePiece` and
`rotatePiece` return `false` (they are total functions, so nothing is
thrown) and leave the whole game state — board, piece, timers — unchanged. -/
theorem moveRotate_invalid_noop (st : GLState) (dir : String) (cw : Bool) :
    ((movePiece st dir).1 = false → (movePiece st dir).2 = st) ∧
      ((rotatePieceGL st cw).1 = false → (rotatePieceGL st cw).2 = st) :=
  ⟨movePiece_fail_noop st dir, rotatePiece_fail_noop st cw⟩

/-- C8 witness: with the wedged T piece both a left move and a clockwise
rotation (including all wall kicks) fail, and the state is untouched. -/
theorem moveRotate_invalid_noop_witness :
    (movePiece c8State "left").2 = c8State ∧
      (rotatePieceGL c8State true).2 = c8State :=
  ⟨(moveRotate_invalid_noop c8State "left" true).1 (by decide),
   (moveRotate_invalid_noop c8State "left" true).2 (by decide)⟩

/-- C9: in one `gameLoop` iteration the elapsed wall time added to the
accumulator is clamped at 100 ms; exactly `⌊accumulator / fixedTimeStep⌋`
updates of one fixed step each are performed, each subtracting the step; and
the final accumulator satisfies `0 ≤ accumulator < fixedTimeStep`. -/
theorem gameLoop_fixed_timestep (lastTime accumulator currentTime : ℚ)
    (hacc : 0 ≤ accumulator) (hmono : lastTime ≤ currentTime) :
    min (currentTime - lastTime) 100 ≤ 100 ∧
    gameLoopStep lastTime accumulator currentTime =
      (currentTime,
       (accumulator + min (currentTime - lastTime) 100) -
         ⌊(accumulator + min (currentTime - lastTime) 100) / fixedTimeStep⌋ *
           fixedTimeStep,
       (⌊(accumulator + min (currentTime - lastTime) 100) / fixedTimeStep⌋).toNat) ∧
    0 ≤ (accumulator + min (currentTime - lastTime) 100) -
        ⌊(accumulator + min (currentTime - lastTime) 100) / fixedTimeStep⌋ *
          fixedTimeStep ∧
    (accumulator + min (currentTime - lastTime) 100) -
        ⌊(accumulator + min (currentTime - lastTime) 100) / fixedTimeStep⌋ *
          fixedTimeStep < fixedTimeStep := by
  have hstep := fixedTimeStep_pos
  set acc := accumulator + min (currentTime - lastTime) 100 with haccdef
  have haccnn : 0 ≤ acc := by
    have : (0 : ℚ) ≤ min (currentTime - lastTime) 100 := le_min (by linarith) (by norm_num)
    linarith
  have hfuel : (⌊acc / fixedTimeStep⌋).toNat < accumFuel acc := by
    have h1 : acc / fixedTimeStep ≤ acc := by
      apply div_le_self haccnn
      norm_num [fixedTimeStep]
    have h2 : acc ≤ (acc.num : ℚ) := by
      conv_lhs => rw [← Rat.num_div_den acc]
      apply div_le_self
      · exact_mod_cast Rat.num_nonneg.mpr haccnn
      · exact_mod_cast Nat.one_le_iff_ne_zero.mpr acc.den_nz
    have h3 : ⌊acc / fixedTimeStep⌋ ≤ acc.num := by
      calc ⌊acc / fixedTimeStep⌋ ≤ ⌊acc⌋ := Int.floor_le_floor h1
        _ ≤ ⌊(acc.num : ℚ)⌋ := Int.floor_le_floor h2
        _ = acc.num := Int.floor_intCast _
    unfold accumFuel
    omega
  refine ⟨min_le_right _ _, ?_, ?_, ?_⟩
  · show (currentTime, (accumLoop (accumFuel acc) acc 0).1,
      (accumLoop (accumFuel acc) acc 0).2) = _
    rw [accumLoop_spec (accumFuel acc) acc 0 haccnn hfuel]
    simp
  · have hfr := Int.fract_nonneg (acc / fixedTimeStep)
    rw [Int.fract] at hfr
    have heq : fixedTimeStep * (acc / fixedTimeStep) = acc := by
      field_simp
    nlinarith
  · have hfr := Int.fract_lt_one (acc / fixedTimeStep)
    rw [Int.fract] at hfr
    have heq : fixedTimeStep * (acc / fixedTimeStep) = acc := by
      field_simp
    nlinarith

/-- C9 witness: a frame with 30 ms accumulated and 250 ms of wall time
elapsed clamps the delta to 100 ms, runs 7 updates and leaves 40/3 ms. -/
theorem gameLoop_fixed_timestep_witness :
    (0 : ℚ) ≤ 30 ∧ (0 : ℚ) ≤ 250 ∧
    gameLoopStep 0 30 250 = (250, 40 / 3, 7) := by
  have h := gameLoop_fixed_timestep 0 30 250 (by norm_num) (by norm_num)
  obtain ⟨-, h2, -, -⟩ := h
  have hfl : ⌊((30 : ℚ) + min ((250 : ℚ) - 0) 100) / fixedTimeStep⌋ = 7 := by
    norm_num [fixedTimeStep, Int.floor_eq_iff]
  rw [hfl] at h2
  refine ⟨by norm_num, by norm_num, ?_⟩
  rw [h2]
  norm_num [fixedTimeStep]
  decide

/-- C10: `holdPiece()` always returns `false` and leaves the entire game
state unchanged, because the shipped `FEATURES.HOLD_PIECE` flag is `false`
and the guard returns before any mutation; hold can never succeed in this
configuration. -/
theorem holdPiece_always_fails (st : GLState) (choices : List Nat) :
    holdPieceGL st choices = (false, st) := by
  cases h : st.currentPiece <;> simp [holdPieceGL, h, FEATURES]

end TetrisKids
